import Mathlib

/-!
Verification of the tic-tac-toe LLM tournament system.

The definitions below are a shallow embedding of the TypeScript source:
the game state machine (class TicTacToeGame in src/game.ts), the
response parser (AIPlayer.parseMove / AIPlayer.makeMove in
src/ai-player.ts), the statistics aggregator (Logger.generateStatistics
in src/logger.ts) and the retry/backoff control loop of
TournamentManager.runTournament in src/tournament.ts.

JavaScript strings are embedded as List Char, numbers as Int / Nat / Rat
(the values involved stay far below the range where IEEE doubles deviate
from exact arithmetic for the comparisons performed by the code), mutable
maps as functions into Option, and Date.now() as an explicit parameter.
-/

namespace TTT

/-- Player marker, type Player = "X" | "O". -/
inductive Player where
  | X
  | O
deriving DecidableEq, Repr

/-- Flip X and O, as in currentPlayer === "X" ? "O" : "X". -/
def Player.other : Player → Player
  | .X => .O
  | .O => .X

instance : Fintype Player :=
  ⟨⟨{Player.X, Player.O}, by simp⟩, fun p => by cases p <;> simp⟩

/-- A cell of the board, type CellValue = Player | null. -/
abbrev CellValue := Option Player

/-- Board = CellValue[][] (the game always builds a 3x3 array). -/
abbrev Board := List (List CellValue)

/-- Terminal classification as returned by checkWinner: a player or "draw"
(null, game in progress, is represented by Option.none around this type). -/
inductive GameResult where
  | win (p : Player)
  | draw
deriving DecidableEq, Repr

/-- Read this.board[r][c] for indices the source only uses in range 0..2;
out-of-range reads (which the source never performs on a 3x3 board) give
the empty cell. -/
def cell (b : Board) (r c : Nat) : CellValue :=
  (b.getD r []).getD c none

/-- Write this.board[r][c] = v. -/
def setCell (b : Board) (r c : Nat) (v : CellValue) : Board :=
  b.set r ((b.getD r []).set c v)

/-- The createEmptyBoard() result. -/
def emptyBoard : Board :=
  [[none, none, none], [none, none, none], [none, none, none]]

/-- The test of one line performed by checkWinner: a non-null first cell
equal to the other two yields that cell's player. -/
def lineCheck (x y z : CellValue) : Option Player :=
  match x with
  | some p => if y = some p ∧ z = some p then some p else none
  | none => none

/-- Whether every cell is filled: board.every(row => row.every(cell => cell !== null)). -/
def boardFull (b : Board) : Bool :=
  b.all (fun row => row.all (fun c => c ≠ none))

/-- The row loop of checkWinner: row r wins if its three cells hold the
same non-null marker. -/
def rowCheck (b : Board) (r : Nat) : Option Player :=
  lineCheck (cell b r 0) (cell b r 1) (cell b r 2)

/-- The column loop body of checkWinner. -/
def colCheck (b : Board) (c : Nat) : Option Player :=
  lineCheck (cell b 0 c) (cell b 1 c) (cell b 2 c)

/-- The main diagonal check of checkWinner. -/
def diagCheck (b : Board) : Option Player :=
  lineCheck (cell b 0 0) (cell b 1 1) (cell b 2 2)

/-- The anti-diagonal check of checkWinner. -/
def antiDiagCheck (b : Board) : Option Player :=
  lineCheck (cell b 0 2) (cell b 1 1) (cell b 2 0)

/-- checkWinner(): the two three-iteration for loops (rows 0,1,2 then
columns 0,1,2, each with an early return) unrolled, then the two
diagonals, then the draw test, else null (in progress). -/
def checkWinner (b : Board) : Option GameResult :=
  match rowCheck b 0 with
  | some p => some (GameResult.win p)
  | none =>
  match rowCheck b 1 with
  | some p => some (GameResult.win p)
  | none =>
  match rowCheck b 2 with
  | some p => some (GameResult.win p)
  | none =>
  match colCheck b 0 with
  | some p => some (GameResult.win p)
  | none =>
  match colCheck b 1 with
  | some p => some (GameResult.win p)
  | none =>
  match colCheck b 2 with
  | some p => some (GameResult.win p)
  | none =>
  match diagCheck b with
  | some p => some (GameResult.win p)
  | none =>
  match antiDiagCheck b with
  | some p => some (GameResult.win p)
  | none => if boardFull b then some GameResult.draw else none

/-- One recorded move (interface GameMove); timestamp is the Date.now()
value passed in by the caller of the embedding. -/
structure GameMove where
  player : Player
  row : Int
  col : Int
  timestamp : Nat
deriving DecidableEq, Repr

/-- The mutable state of a TicTacToeGame instance. -/
structure GameState where
  board : Board
  currentPlayer : Player
  moves : List GameMove
deriving Repr

/-- The state built by the constructor. -/
def initialGame : GameState :=
  { board := emptyBoard, currentPlayer := Player.X, moves := [] }

/-- isValidMove(row, col): range check first, then emptiness of the cell.
Coordinates are Int because they come from parsing model text. -/
def isValidMove (b : Board) (row col : Int) : Bool :=
  if row < 0 ∨ row > 2 ∨ col < 0 ∨ col > 2 then false
  else cell b row.toNat col.toNat = none

/-- makeMove(row, col): returns false leaving the state untouched when
isValidMove fails; otherwise marks the cell, appends the move record and
flips the turn. -/
def makeMove (s : GameState) (row col : Int) (now : Nat) : Bool × GameState :=
  if isValidMove s.board row col then
    (true,
      { board := setCell s.board row.toNat col.toNat (some s.currentPlayer)
        currentPlayer := s.currentPlayer.other
        moves := s.moves ++ [{ player := s.currentPlayer, row := row, col := col, timestamp := now }] })
  else (false, s)

/-- Well-formedness of a board: exactly 3 rows of 3 cells, true of every
board a TicTacToeGame ever holds. -/
def WFBoard (b : Board) : Prop :=
  b.length = 3 ∧ ∀ r ∈ b, r.length = 3

/-- A player owns a complete line: some row, column or diagonal is uniform
with that player's marker (the eight lines of a 3x3 board, spelled out). -/
def lineWinP (b : Board) (p : Player) : Prop :=
  (cell b 0 0 = some p ∧ cell b 0 1 = some p ∧ cell b 0 2 = some p) ∨
  (cell b 1 0 = some p ∧ cell b 1 1 = some p ∧ cell b 1 2 = some p) ∨
  (cell b 2 0 = some p ∧ cell b 2 1 = some p ∧ cell b 2 2 = some p) ∨
  (cell b 0 0 = some p ∧ cell b 1 0 = some p ∧ cell b 2 0 = some p) ∨
  (cell b 0 1 = some p ∧ cell b 1 1 = some p ∧ cell b 2 1 = some p) ∨
  (cell b 0 2 = some p ∧ cell b 1 2 = some p ∧ cell b 2 2 = some p) ∨
  (cell b 0 0 = some p ∧ cell b 1 1 = some p ∧ cell b 2 2 = some p) ∨
  (cell b 0 2 = some p ∧ cell b 1 1 = some p ∧ cell b 2 0 = some p)

/-- No player owns a complete line. -/
def noLine (b : Board) : Prop := ∀ p, ¬ lineWinP b p

/-- The first empty cell in row-major order, the fixed naive strategy of
the end-to-end test scenario. -/
def firstEmptyCell (b : Board) : Option (Nat × Nat) :=
  ((List.range 9).find? (fun i => cell b (i / 3) (i % 3) = none)).map (fun i => (i / 3, i % 3))

/-- The match loop of TournamentManager.playMatch specialised to players
that always answer with the first empty cell in row-major order: while the
game is not over, apply that cell as the current player's move.  Fuel
bounds the iteration (nine moves fill the board); none is returned only on
fuel exhaustion or if a move is rejected, neither of which happens. -/
def playNaive : Nat → GameState → Option GameResult
  | 0, _ => none
  | fuel + 1, s =>
    match checkWinner s.board with
    | some res => some res
    | none =>
      match firstEmptyCell s.board with
      | none => none
      | some rc =>
        let step := makeMove s rc.1 rc.2 0
        if step.1 then playNaive fuel step.2 else none

/-! The response parser of AIPlayer.  JavaScript strings are embedded as
List Char.  The four regular expressions of parseMove are small enough to
embed directly: each is a sequence of literals, greedy character-class
quantifiers and capture groups of shape -?digits, matched with the
backtracking, leftmost-first semantics of JavaScript string.match. -/

/-- The characters of a Lean string literal, used to write concrete replies. -/
def chars (s : String) : List Char := s.data

/-- The JS \d class: the decimal digits. -/
def digitChar (c : Char) : Bool := decide (48 ≤ c.toNat ∧ c.toNat ≤ 57)

/-- The JS \s class (also the set trimmed by String.prototype.trim):
tab through carriage return, space, and the Unicode space characters. -/
def jsWhitespace (c : Char) : Bool :=
  decide ((9 ≤ c.toNat ∧ c.toNat ≤ 13) ∨ c.toNat = 32 ∨ c.toNat = 0xa0 ∨ c.toNat = 0x1680 ∨
    (0x2000 ≤ c.toNat ∧ c.toNat ≤ 0x200a) ∨ c.toNat = 0x2028 ∨ c.toNat = 0x2029 ∨
    c.toNat = 0x202f ∨ c.toNat = 0x205f ∨ c.toNat = 0x3000 ∨ c.toNat = 0xfeff)

/-- String.prototype.trim: drop whitespace from both ends. -/
def trim (s : List Char) : List Char :=
  ((s.dropWhile jsWhitespace).reverse.dropWhile jsWhitespace).reverse

/-- String.prototype.split("\n"): always at least one piece. -/
def splitNL : List Char → List (List Char)
  | [] => [[]]
  | c :: t =>
    match splitNL t with
    | [] => [[]]
    | h :: r => if c = '\n' then [] :: h :: r else (c :: h) :: r

/-- One item of an embedded regular expression: a literal (with a
case-insensitivity flag), a greedy star or plus over a character class, or
a capture group of shape -?\d+ (the only capture shape the source uses). -/
inductive RItem where
  | lit (cs : List Char) (ci : Bool)
  | star (p : Char → Bool)
  | plus (p : Char → Bool)
  | cap

/-- Match a literal at the head of the input, returning the rest. -/
def matchLit (cs : List Char) (ci : Bool) (s : List Char) : Option (List Char) :=
  match cs, s with
  | [], s2 => some s2
  | _ :: _, [] => none
  | c :: cs2, x :: s2 =>
    if (if ci then c.toLower = x.toLower else c = x) then matchLit cs2 ci s2 else none

/-- Greedy backtracking for a quantifier: try consuming k characters for
k from the given maximum down to min, first success wins. -/
def tryLens (min : Nat) (cont : Nat → Option α) : Nat → Option α
  | 0 => if min = 0 then cont 0 else none
  | k + 1 =>
    if k + 1 < min then none
    else
      match cont (k + 1) with
      | some r => some r
      | none => tryLens min cont k

/-- Match a sequence of items at the start of the input, returning the
captured groups in order; quantifiers are greedy with backtracking and a
capture group consumes an optional minus sign then one or more digits
(greedily, preferring the sign). -/
def matchItems : List RItem → List Char → Option (List (List Char))
  | [], _ => some []
  | RItem.lit cs ci :: rest, s =>
    match matchLit cs ci s with
    | some s2 => matchItems rest s2
    | none => none
  | RItem.star p :: rest, s =>
    tryLens 0 (fun k => matchItems rest (s.drop k)) (s.takeWhile p).length
  | RItem.plus p :: rest, s =>
    tryLens 1 (fun k => matchItems rest (s.drop k)) (s.takeWhile p).length
  | RItem.cap :: rest, s =>
    match s with
    | '-' :: t =>
      match tryLens 1
          (fun k => (matchItems rest (t.drop k)).map (fun caps => ('-' :: t.take k) :: caps))
          (t.takeWhile digitChar).length with
      | some r => some r
      | none =>
        tryLens 1 (fun k => (matchItems rest (s.drop k)).map (fun caps => s.take k :: caps))
          ((s.takeWhile digitChar).length)
    | _ =>
      tryLens 1 (fun k => (matchItems rest (s.drop k)).map (fun caps => s.take k :: caps))
        ((s.takeWhile digitChar).length)

/-- Leftmost-first search: try a full-sequence match at every start
position from the left, as JavaScript string.match does. -/
def searchFrom (items : List RItem) : List Char → Option (List (List Char))
  | [] => matchItems items []
  | c :: t =>
    match matchItems items (c :: t) with
    | some r => some r
    | none => searchFrom items t

/-- Try the regular expressions in order; the first one with a match wins. -/
def firstMatch : List (List RItem) → List Char → Option (List (List Char))
  | [], _ => none
  | p :: ps, s =>
    match searchFrom p s with
    | some r => some r
    | none => firstMatch ps s

/-- The labeled pattern row N ... col M, case-insensitive. -/
def patRowCol : List RItem :=
  [RItem.lit (chars "row") true, RItem.star jsWhitespace, RItem.cap,
   RItem.plus (fun c => !digitChar c), RItem.lit (chars "col") true,
   RItem.star jsWhitespace, RItem.cap]

/-- The parenthesized pair pattern (N,M). -/
def patParen : List RItem :=
  [RItem.lit ['('] false, RItem.cap, RItem.star jsWhitespace, RItem.lit [','] false,
   RItem.star jsWhitespace, RItem.cap, RItem.lit [')'] false]

/-- The bare comma pair pattern N,M. -/
def patComma : List RItem :=
  [RItem.cap, RItem.star jsWhitespace, RItem.lit [','] false,
   RItem.star jsWhitespace, RItem.cap]

/-- The bare space-separated pair pattern N M. -/
def patSpace : List RItem :=
  [RItem.cap, RItem.plus jsWhitespace, RItem.cap]

/-- The pattern priority list of parseMove. -/
def patterns : List (List RItem) := [patRowCol, patParen, patComma, patSpace]

/-- Value of a leading run of digits, none when there is no digit. -/
def leadingDigitsVal (cs : List Char) : Option Nat :=
  match cs.takeWhile digitChar with
  | [] => none
  | ds => some (ds.foldl (fun acc c => acc * 10 + (c.toNat - 48)) 0)

/-- Number.parseInt(s, 10) restricted to the capture shapes that occur:
an optional sign followed by digits; none plays the role of NaN. -/
def jsParseInt (cs : List Char) : Option Int :=
  match cs with
  | '-' :: t => (leadingDigitsVal t).map (fun n => -(n : Int))
  | '+' :: t => (leadingDigitsVal t).map (fun n => (n : Int))
  | _ => (leadingDigitsVal cs).map (fun n => (n : Int))

/-- The typed invalid-move classification (type InvalidMoveType). -/
inductive InvalidMoveType where
  | blank
  | invalid_syntax
  | outside_board
  | occupied_cell
  | negative_coordinates
deriving DecidableEq, Repr

/-- Result of parsing one reply: a move or a classification. -/
inductive ParseResult where
  | move (row col : Int)
  | invalid (t : InvalidMoveType)
deriving DecidableEq, Repr

/-- The last line examined by parseMove: response.trim().split("\n") taken
at the last index, trimmed. -/
def lastLineOf (response : List Char) : List Char :=
  trim ((splitNL (trim response)).getLastD [])

/-- AIPlayer.parseMove: match the last line against the four patterns in
priority order; on a match parse both captures and check NaN, then
negativity, then the upper bound, in that order; on no match return
invalid_syntax whether or not the line holds a digit. -/
def parseMove (response : List Char) : ParseResult :=
  match firstMatch patterns (lastLineOf response) with
  | some caps =>
    match jsParseInt (caps.getD 0 []), jsParseInt (caps.getD 1 []) with
    | some row, some col =>
      if row < 0 ∨ col < 0 then ParseResult.invalid InvalidMoveType.negative_coordinates
      else if row > 2 ∨ col > 2 then ParseResult.invalid InvalidMoveType.outside_board
      else ParseResult.move row col
    | _, _ => ParseResult.invalid InvalidMoveType.invalid_syntax
  | none =>
    if (lastLineOf response).any digitChar then ParseResult.invalid InvalidMoveType.invalid_syntax
    else ParseResult.invalid InvalidMoveType.invalid_syntax

/-- The classification performed by AIPlayer.makeMove around parseMove: a
reply that trims to the empty string is blank before any parsing;
otherwise the trimmed content is parsed. -/
def classifyResponse (response : List Char) : ParseResult :=
  let content := trim response
  if content = [] then ParseResult.invalid InvalidMoveType.blank
  else parseMove content

/-! The statistics aggregator Logger.generateStatistics.  The JavaScript
Map from model id to its mutable ModelStats object is embedded as a
function String to Option ModelStats and every ++ statement of the source
becomes one functional update, applied in the same order, so that the
aliasing that occurs when outcome.X = outcome.O is reproduced exactly. -/

/-- The winner field of a MatchOutcome: Player | "draw" | "invalid". -/
inductive Winner where
  | X
  | O
  | draw
  | invalid
deriving DecidableEq, Repr

/-- The fields of interface MatchOutcome that generateStatistics reads
(matchId, winnerModel, invalidReason, matchFile and timestamp are carried
along in the source but never consulted by the aggregation). -/
structure MatchOutcome where
  X : String
  O : String
  winner : Winner
deriving DecidableEq, Repr

/-- One head-to-head record opponents[id]. -/
structure OppRecord where
  wins : Nat
  losses : Nat
  draws : Nat
  invalid : Nat
deriving DecidableEq, Repr

/-- The freshly initialized head-to-head record. -/
def zeroOpp : OppRecord := { wins := 0, losses := 0, draws := 0, invalid := 0 }

/-- Interface ModelStats as the logger builds it; winRate is a rational
(the divisions the source performs stay exact in IEEE doubles for the
orderings considered, and Rat mirrors them faithfully). -/
structure ModelStats where
  modelId : String
  totalMatches : Nat
  wins : Nat
  losses : Nat
  draws : Nat
  invalidGames : Nat
  winRate : Rat
  opponents : String → Option OppRecord

/-- The zeroed per-model record installed for every configured model. -/
def zeroStats (id : String) : ModelStats :=
  { modelId := id, totalMatches := 0, wins := 0, losses := 0, draws := 0,
    invalidGames := 0, winRate := 0, opponents := fun _ => none }

/-- The modelStats map. -/
abbrev StatsMap := String → Option ModelStats

/-- The initialization loop: a zeroed record for every configured model. -/
def initStats (models : List String) : StatsMap :=
  fun k => if k ∈ models then some (zeroStats k) else none

/-- One in-place mutation of the record stored under key k. -/
def updStats (m : StatsMap) (k : String) (f : ModelStats → ModelStats) : StatsMap :=
  fun k2 => if k2 = k then (m k2).map f else m k2

/-- The lazy initialization if (!stats.opponents[opp]) stats.opponents[opp] = zeros. -/
def setOppIfAbsent (s : ModelStats) (opp : String) : ModelStats :=
  if (s.opponents opp).isNone then
    { s with opponents := fun k2 => if k2 = opp then some zeroOpp else s.opponents k2 }
  else s

/-- Ensure the head-to-head record of k against opp exists. -/
def ensureOpp (m : StatsMap) (k opp : String) : StatsMap :=
  updStats m k (fun s => setOppIfAbsent s opp)

/-- One in-place mutation of the head-to-head record of k against opp. -/
def updOpp (m : StatsMap) (k opp : String) (f : OppRecord → OppRecord) : StatsMap :=
  updStats m k (fun s =>
    { s with opponents := fun k2 => if k2 = opp then (s.opponents k2).map f else s.opponents k2 })

/-- The four statements of one winner branch of the outcome loop: mutate
the X side's record with g1, the O side's with g2, then the X side's
head-to-head record against O with f1, and the O side's against X with f2,
in source order. -/
def bumpPair (m4 : StatsMap) (Xk Ok : String)
    (g1 g2 : ModelStats → ModelStats) (f1 f2 : OppRecord → OppRecord) : StatsMap :=
  let m5 := updStats m4 Xk g1
  let m6 := updStats m5 Ok g2
  let m7 := updOpp m6 Xk Ok f1
  updOpp m7 Ok Xk f2

/-- The prefix of one iteration of the outcome loop once the participants
are known: bump both totalMatches counters, then lazily initialize both
head-to-head records, in source order. -/
def prepOutcome (m : StatsMap) (Xk Ok : String) : StatsMap :=
  ensureOpp (ensureOpp
    (updStats (updStats m Xk (fun s => { s with totalMatches := s.totalMatches + 1 }))
      Ok (fun s => { s with totalMatches := s.totalMatches + 1 }))
    Xk Ok) Ok Xk

/-- The body of the outcome loop of generateStatistics: skip the outcome
when either participant is unknown, otherwise bump both totals, ensure
both head-to-head records, and update the counters of both sides
according to the winner, statement by statement in source order. -/
def processOutcome (m : StatsMap) (o : MatchOutcome) : StatsMap :=
  if (m o.X).isNone ∨ (m o.O).isNone then m
  else
    let m4 := prepOutcome m o.X o.O
    match o.winner with
    | Winner.invalid =>
      bumpPair m4 o.X o.O
        (fun s => { s with invalidGames := s.invalidGames + 1 })
        (fun s => { s with invalidGames := s.invalidGames + 1 })
        (fun r => { r with invalid := r.invalid + 1 })
        (fun r => { r with invalid := r.invalid + 1 })
    | Winner.draw =>
      bumpPair m4 o.X o.O
        (fun s => { s with draws := s.draws + 1 })
        (fun s => { s with draws := s.draws + 1 })
        (fun r => { r with draws := r.draws + 1 })
        (fun r => { r with draws := r.draws + 1 })
    | Winner.X =>
      bumpPair m4 o.X o.O
        (fun s => { s with wins := s.wins + 1 })
        (fun s => { s with losses := s.losses + 1 })
        (fun r => { r with wins := r.wins + 1 })
        (fun r => { r with losses := r.losses + 1 })
    | Winner.O =>
      bumpPair m4 o.X o.O
        (fun s => { s with losses := s.losses + 1 })
        (fun s => { s with wins := s.wins + 1 })
        (fun r => { r with losses := r.losses + 1 })
        (fun r => { r with wins := r.wins + 1 })

/-- The win-rate pass: winRate = wins / (totalMatches - invalidGames) when
that denominator is positive, else 0; the quotient is built with mkRat,
which is the same rational number as the division the source performs. -/
def setWinRate (s : ModelStats) : ModelStats :=
  let validGames : Int := (s.totalMatches : Int) - (s.invalidGames : Int)
  { s with winRate := if 0 < validGames then mkRat (s.wins : Int) validGames.toNat else 0 }

/-- The outcome fold of generateStatistics. -/
def foldStats (models : List String) (outcomes : List MatchOutcome) : StatsMap :=
  outcomes.foldl processOutcome (initStats models)

/-- The map after the win-rate pass. -/
def finalStatsMap (models : List String) (outcomes : List MatchOutcome) : StatsMap :=
  fun k => ((foldStats models outcomes) k).map setWinRate

/-- Insertion order of the Map keys: first occurrence order of the
configured model list. -/
def insertionOrder (models : List String) : List String :=
  models.foldl (fun acc k => if k ∈ acc then acc else acc ++ [k]) []

/-- Array.from(modelStats.values()) after the win-rate pass. -/
def statsValues (models : List String) (outcomes : List MatchOutcome) : List ModelStats :=
  (insertionOrder models).filterMap (finalStatsMap models outcomes)

/-- The sort comparator of the rankings: a may precede b when a's win rate
is higher, or equal with at least as many wins (JavaScript sort is stable,
and a stable sort for this total preorder is what insertionSort computes). -/
def rankLe (a b : ModelStats) : Prop :=
  b.winRate < a.winRate ∨ (a.winRate = b.winRate ∧ b.wins ≤ a.wins)

instance : DecidableRel rankLe := fun a b =>
  inferInstanceAs (Decidable (b.winRate < a.winRate ∨ (a.winRate = b.winRate ∧ b.wins ≤ a.wins)))

/-- One entry of the rankings array. -/
structure RankEntry where
  modelId : String
  rank : Nat
  winRate : Rat
  totalWins : Nat
deriving DecidableEq, Repr

/-- Interface TournamentStats as generateStatistics builds it. -/
structure TournamentStats where
  totalMatches : Nat
  completedMatches : Nat
  invalidMatches : Nat
  models : List ModelStats
  rankings : List RankEntry
  timestamp : Nat

/-- Logger.generateStatistics as a pure function of the outcome log, the
model list, the optional expected total (|| falls back to the log length,
also on an expected total of zero) and the Date.now() value. -/
def generateStatistics (models : List String) (expectedTotalMatches : Option Nat)
    (now : Nat) (outcomes : List MatchOutcome) : TournamentStats :=
  let statsList := statsValues models outcomes
  let sorted := List.insertionSort rankLe statsList
  { totalMatches :=
      match expectedTotalMatches with
      | some n => if n = 0 then outcomes.length else n
      | none => outcomes.length
    completedMatches := (outcomes.filter (fun o => o.winner ≠ Winner.invalid)).length
    invalidMatches := (outcomes.filter (fun o => o.winner = Winner.invalid)).length
    models := statsList
    rankings := sorted.enum.map (fun p =>
      { modelId := p.2.modelId, rank := p.1 + 1, winRate := p.2.winRate, totalWins := p.2.wins })
    timestamp := now }

/-- The head-to-head record of a against b as stored in the map, read as
zeros when absent (the shape the reporting code prints). -/
def h2h (m : StatsMap) (a b : String) : OppRecord :=
  match m a with
  | none => zeroOpp
  | some s => (s.opponents b).getD zeroOpp

/-- The head-to-head record of k against opp exists in the map. -/
def hasOpp (m : StatsMap) (k opp : String) : Prop :=
  ∃ s, m k = some s ∧ (s.opponents opp).isSome

/-- Head-to-head symmetry of a statistics map: a's wins against b are b's
losses against a and conversely, and draws and invalid counts agree. -/
def SymmInv (m : StatsMap) : Prop :=
  ∀ a b, (h2h m a b).wins = (h2h m b a).losses ∧ (h2h m a b).losses = (h2h m b a).wins ∧
    (h2h m a b).draws = (h2h m b a).draws ∧ (h2h m a b).invalid = (h2h m b a).invalid

/-- A small log for the C9 witness: A beats B once, then draws as O. -/
def logSym : List MatchOutcome :=
  [{ X := "A", O := "B", winner := Winner.X },
   { X := "B", O := "A", winner := Winner.draw }]

/-- The aggregated record of model A in the witness log. -/
def sASym : ModelStats := ((finalStatsMap ["A", "B"] logSym) "A").getD (zeroStats "A")

/-- The aggregated record of model B in the witness log. -/
def sBSym : ModelStats := ((finalStatsMap ["A", "B"] logSym) "B").getD (zeroStats "B")

/-! C1 and C7: the aggregator scenario and recomputation. -/

/-- The outcome log of the aggregator scenario: A beats B twice, one draw,
B beats A once (as X in the fourth game), no invalid games. -/
def logC1 : List MatchOutcome :=
  [{ X := "A", O := "B", winner := Winner.X },
   { X := "A", O := "B", winner := Winner.X },
   { X := "A", O := "B", winner := Winner.draw },
   { X := "B", O := "A", winner := Winner.X }]

/-! The retry/backoff control loop of TournamentManager.runTournament,
per scheduled pairing.  One loop iteration plays a match (an attempt) and
then decides: done on a valid match; immediate retry on a textual invalid
move classification; retry counting, exponential backoff sleep and a
possible operator wait on an api_error or an escaped exception.  The
events list records, in order, the attempts, sleeps and operator waits the
loop performs. -/

/-- An observable action of the retry loop. -/
inductive LoopEvent where
  | attempt
  | sleep (ms : Rat)
  | operatorWait
deriving DecidableEq, Repr

/-- The invalidMoveTypes array of runTournament. -/
def invalidMoveTypes : List (List Char) :=
  [chars "blank", chars "invalid_syntax", chars "outside_board",
   chars "occupied_cell", chars "negative_coordinates"]

/-- Whether the needle occurs at the head of the haystack. -/
def matchAt : List Char → List Char → Bool
  | [], _ => true
  | _ :: _, [] => false
  | a :: as, b :: bs => a == b && matchAt as bs

/-- JavaScript String.prototype.includes: the needle occurs somewhere. -/
def containsSub (needle : List Char) : List Char → Bool
  | [] => matchAt needle []
  | c :: t => matchAt needle (c :: t) || containsSub needle t

/-- The invalidMoveTypes.some(type => invalidReason.includes(type)) test. -/
def isTextualInvalid (reason : List Char) : Bool :=
  invalidMoveTypes.any (fun ty => containsSub ty reason)

/-- One attempt's result as the retry loop observes it: a valid match, an
invalid match carrying its invalidReason string, or an exception escaping
playMatch. -/
inductive AttemptOutcome where
  | valid
  | invalid (reason : List Char)
  | exception

/-- The tournament configuration fields the loop reads. -/
structure RetryConfig where
  maxRetries : Nat
  backoffMultiplier : Rat

/-- The loop state: the apiRetries counter, the backoffTime delay, the
recorded events, and whether the pairing is done. -/
structure RetryState where
  apiRetries : Nat
  backoffTime : Rat
  events : List LoopEvent
  completed : Bool

/-- State at the top of the per-pairing loop: zero retries, one second
base delay. -/
def initialRetryState : RetryState :=
  { apiRetries := 0, backoffTime := 1000, events := [], completed := false }

/-- The api_error / exception path: increment the counter; when it reaches
maxRetries, wait for the operator and reset it to zero; then sleep the
current backoffTime and multiply it by backoffMultiplier, in source
order. -/
def apiFailStep (cfg : RetryConfig) (s : RetryState) : RetryState :=
  { apiRetries := if s.apiRetries + 1 ≥ cfg.maxRetries then 0 else s.apiRetries + 1
    backoffTime := s.backoffTime * cfg.backoffMultiplier
    events := s.events ++
      (if s.apiRetries + 1 ≥ cfg.maxRetries then [LoopEvent.operatorWait] else []) ++
      [LoopEvent.sleep s.backoffTime]
    completed := false }

/-- One iteration of while (!matchCompleted): play one match (the attempt
event), then finish, retry immediately on a textual classification, or
take the api-failure path. -/
def stepAttempt (cfg : RetryConfig) (s : RetryState) (r : AttemptOutcome) : RetryState :=
  if s.completed then s
  else
    let s2 := { s with events := s.events ++ [LoopEvent.attempt] }
    match r with
    | AttemptOutcome.valid => { s2 with completed := true }
    | AttemptOutcome.invalid reason =>
      if isTextualInvalid reason then s2 else apiFailStep cfg s2
    | AttemptOutcome.exception => apiFailStep cfg s2

/-- The loop run over a given sequence of attempt results. -/
def runAttempts (cfg : RetryConfig) (rs : List AttemptOutcome) : RetryState :=
  rs.foldl (stepAttempt cfg) initialRetryState

theorem lineCheck_eq_some {x y z : CellValue} {p : Player} :
    lineCheck x y z = some p ↔ (x = some p ∧ y = some p ∧ z = some p) := by
  cases x with
  | none => simp [lineCheck]
  | some q =>
    simp only [lineCheck]
    split_ifs with h
    · constructor
      · rintro ⟨rfl⟩
        exact ⟨rfl, h.1, h.2⟩
      · rintro ⟨hq, _, _⟩
        exact hq
    · constructor
      · rintro ⟨rfl⟩
      · rintro ⟨hq, hy, hz⟩
        cases hq
        exact absurd ⟨hy, hz⟩ h

theorem lineCheck_eq_none {x y z : CellValue} :
    lineCheck x y z = none ↔ ∀ p : Player, ¬ (x = some p ∧ y = some p ∧ z = some p) := by
  rcases h : lineCheck x y z with _ | q
  · simp only [true_iff]
    intro p hp
    have h2 := lineCheck_eq_some.mpr hp
    rw [h] at h2
    exact Option.noConfusion h2
  · simp only [reduceCtorEq, false_iff, not_forall, not_not]
    exact ⟨q, lineCheck_eq_some.mp h⟩

/-- Total case analysis of checkWinner: it returns a winner exactly on a
completed line, draw exactly on a full board without a line, and null
otherwise. -/
theorem checkWinner_cases (b : Board) :
    (∃ p, checkWinner b = some (GameResult.win p) ∧ lineWinP b p) ∨
    (checkWinner b = some GameResult.draw ∧ boardFull b = true ∧ noLine b) ∨
    (checkWinner b = none ∧ boardFull b = false ∧ noLine b) := by
  unfold checkWinner
  cases h0 : rowCheck b 0 with
  | some p => exact Or.inl ⟨p, rfl, Or.inl (lineCheck_eq_some.mp h0)⟩
  | none =>
  cases h1 : rowCheck b 1 with
  | some p => exact Or.inl ⟨p, rfl, Or.inr (Or.inl (lineCheck_eq_some.mp h1))⟩
  | none =>
  cases h2 : rowCheck b 2 with
  | some p => exact Or.inl ⟨p, rfl, Or.inr (Or.inr (Or.inl (lineCheck_eq_some.mp h2)))⟩
  | none =>
  cases h3 : colCheck b 0 with
  | some p =>
    exact Or.inl ⟨p, rfl, Or.inr (Or.inr (Or.inr (Or.inl (lineCheck_eq_some.mp h3))))⟩
  | none =>
  cases h4 : colCheck b 1 with
  | some p =>
    exact Or.inl ⟨p, rfl, Or.inr (Or.inr (Or.inr (Or.inr (Or.inl (lineCheck_eq_some.mp h4)))))⟩
  | none =>
  cases h5 : colCheck b 2 with
  | some p =>
    exact Or.inl ⟨p, rfl,
      Or.inr (Or.inr (Or.inr (Or.inr (Or.inr (Or.inl (lineCheck_eq_some.mp h5))))))⟩
  | none =>
  cases h6 : diagCheck b with
  | some p =>
    exact Or.inl ⟨p, rfl,
      Or.inr (Or.inr (Or.inr (Or.inr (Or.inr (Or.inr (Or.inl (lineCheck_eq_some.mp h6)))))))⟩
  | none =>
  cases h7 : antiDiagCheck b with
  | some p =>
    exact Or.inl ⟨p, rfl,
      Or.inr (Or.inr (Or.inr (Or.inr (Or.inr (Or.inr (Or.inr (lineCheck_eq_some.mp h7)))))))⟩
  | none =>
  have h0' : lineCheck (cell b 0 0) (cell b 0 1) (cell b 0 2) = none := h0
  have h1' : lineCheck (cell b 1 0) (cell b 1 1) (cell b 1 2) = none := h1
  have h2' : lineCheck (cell b 2 0) (cell b 2 1) (cell b 2 2) = none := h2
  have h3' : lineCheck (cell b 0 0) (cell b 1 0) (cell b 2 0) = none := h3
  have h4' : lineCheck (cell b 0 1) (cell b 1 1) (cell b 2 1) = none := h4
  have h5' : lineCheck (cell b 0 2) (cell b 1 2) (cell b 2 2) = none := h5
  have h6' : lineCheck (cell b 0 0) (cell b 1 1) (cell b 2 2) = none := h6
  have h7' : lineCheck (cell b 0 2) (cell b 1 1) (cell b 2 0) = none := h7
  have hnl : noLine b := by
    intro p hp
    rcases hp with h | h | h | h | h | h | h | h
    · exact lineCheck_eq_none.mp h0' p h
    · exact lineCheck_eq_none.mp h1' p h
    · exact lineCheck_eq_none.mp h2' p h
    · exact lineCheck_eq_none.mp h3' p h
    · exact lineCheck_eq_none.mp h4' p h
    · exact lineCheck_eq_none.mp h5' p h
    · exact lineCheck_eq_none.mp h6' p h
    · exact lineCheck_eq_none.mp h7' p h
  cases hf : boardFull b with
  | false => exact Or.inr (Or.inr ⟨by simp [hf], rfl, hnl⟩)
  | true => exact Or.inr (Or.inl ⟨by simp [hf], rfl, hnl⟩)

/-- C5. checkWinner returns a winning player iff some row, column or
diagonal is uniform and non-empty; draw iff the board is full with no such
line; null otherwise; and a winning row is reported before columns and
diagonals are consulted (rows before columns before diagonals). -/
theorem checkWinner_terminal_correct (b : Board) :
    ((∃ p, checkWinner b = some (GameResult.win p)) ↔ (∃ p, lineWinP b p)) ∧
    (checkWinner b = some GameResult.draw ↔ (boardFull b = true ∧ noLine b)) ∧
    (checkWinner b = none ↔ (boardFull b = false ∧ noLine b)) ∧
    (∀ p, checkWinner b = some (GameResult.win p) → lineWinP b p) ∧
    (∀ p, rowCheck b 0 = some p → checkWinner b = some (GameResult.win p)) ∧
    (rowCheck b 0 = none → rowCheck b 1 = none → rowCheck b 2 = none →
      ∀ p, colCheck b 0 = some p → checkWinner b = some (GameResult.win p)) ∧
    (rowCheck b 0 = none → rowCheck b 1 = none → rowCheck b 2 = none →
      colCheck b 0 = none → colCheck b 1 = none → colCheck b 2 = none →
      ∀ p, diagCheck b = some p → checkWinner b = some (GameResult.win p)) := by
  have ho1 : ∀ p, rowCheck b 0 = some p → checkWinner b = some (GameResult.win p) := by
    intro p h
    unfold checkWinner
    rw [h]
  have ho2 : rowCheck b 0 = none → rowCheck b 1 = none → rowCheck b 2 = none →
      ∀ p, colCheck b 0 = some p → checkWinner b = some (GameResult.win p) := by
    intro ha hb hc p h
    unfold checkWinner
    rw [ha, hb, hc, h]
  have ho3 : rowCheck b 0 = none → rowCheck b 1 = none → rowCheck b 2 = none →
      colCheck b 0 = none → colCheck b 1 = none → colCheck b 2 = none →
      ∀ p, diagCheck b = some p → checkWinner b = some (GameResult.win p) := by
    intro ha hb hc hd he hf p h
    unfold checkWinner
    rw [ha, hb, hc, hd, he, hf, h]
  refine ⟨?_, ?_, ?_, ?_, ho1, ho2, ho3⟩
  · constructor
    · rintro ⟨q, hq⟩
      rcases checkWinner_cases b with ⟨p, _, hl⟩ | ⟨hw, _, _⟩ | ⟨hw, _, _⟩
      · exact ⟨p, hl⟩
      · rw [hw] at hq
        simp at hq
      · rw [hw] at hq
        simp at hq
    · rintro ⟨q, hq⟩
      rcases checkWinner_cases b with ⟨p, hw, _⟩ | ⟨_, _, hnl⟩ | ⟨_, _, hnl⟩
      · exact ⟨p, hw⟩
      · exact absurd hq (hnl q)
      · exact absurd hq (hnl q)
  · constructor
    · intro hd
      rcases checkWinner_cases b with ⟨p, hw, _⟩ | ⟨_, hf, hnl⟩ | ⟨hw, _, _⟩
      · rw [hw] at hd
        simp at hd
      · exact ⟨hf, hnl⟩
      · rw [hw] at hd
        simp at hd
    · rintro ⟨hf, hnl⟩
      rcases checkWinner_cases b with ⟨p, _, hl⟩ | ⟨hw, _, _⟩ | ⟨_, hf2, _⟩
      · exact absurd hl (hnl p)
      · exact hw
      · rw [hf] at hf2
        simp at hf2
  · constructor
    · intro hd
      rcases checkWinner_cases b with ⟨p, hw, _⟩ | ⟨hw, _, _⟩ | ⟨_, hf, hnl⟩
      · rw [hw] at hd
        simp at hd
      · rw [hw] at hd
        simp at hd
      · exact ⟨hf, hnl⟩
    · rintro ⟨hf, hnl⟩
      rcases checkWinner_cases b with ⟨p, _, hl⟩ | ⟨_, hf2, _⟩ | ⟨hw, _, _⟩
      · exact absurd hl (hnl p)
      · rw [hf] at hf2
        simp at hf2
      · exact hw
  · intro q hq
    rcases checkWinner_cases b with ⟨p, hw, hl⟩ | ⟨hw, _, _⟩ | ⟨hw, _, _⟩
    · rw [hw] at hq
      simp only [Option.some.injEq, GameResult.win.injEq] at hq
      subst hq
      exact hl
    · rw [hw] at hq
      simp at hq
    · rw [hw] at hq
      simp at hq

theorem isValidMove_eq_false_iff (b : Board) (row col : Int) :
    isValidMove b row col = false ↔
      (row < 0 ∨ row > 2 ∨ col < 0 ∨ col > 2 ∨ cell b row.toNat col.toNat ≠ none) := by
  unfold isValidMove
  split_ifs with h
  · simp only [true_iff]
    tauto
  · push_neg at h
    simp only [decide_eq_false_iff_not]
    constructor
    · intro hc
      exact Or.inr (Or.inr (Or.inr (Or.inr hc)))
    · rintro (h1 | h2 | h3 | h4 | h5)
      · exact absurd h1 (by omega)
      · exact absurd h2 (by omega)
      · exact absurd h3 (by omega)
      · exact absurd h4 (by omega)
      · exact h5

/-- C6. makeMove on an out-of-range or occupied cell returns false and
leaves board, move list and turn untouched; on an in-range empty cell it
returns true, marks the cell with the current player, appends the move
record and flips the turn. -/
theorem makeMove_correct (s : GameState) (row col : Int) (now : Nat)
    (hwf : WFBoard s.board) :
    ((row < 0 ∨ row > 2 ∨ col < 0 ∨ col > 2 ∨ cell s.board row.toNat col.toNat ≠ none) →
      makeMove s row col now = (false, s)) ∧
    ((0 ≤ row ∧ row ≤ 2 ∧ 0 ≤ col ∧ col ≤ 2 ∧ cell s.board row.toNat col.toNat = none) →
      (makeMove s row col now).1 = true ∧
      cell (makeMove s row col now).2.board row.toNat col.toNat = some s.currentPlayer ∧
      (makeMove s row col now).2.currentPlayer = s.currentPlayer.other ∧
      (makeMove s row col now).2.moves =
        s.moves ++ [{ player := s.currentPlayer, row := row, col := col, timestamp := now }]) := by
  constructor
  · intro hbad
    have hv : isValidMove s.board row col = false := (isValidMove_eq_false_iff _ _ _).mpr hbad
    unfold makeMove
    rw [hv]
    simp
  · rintro ⟨hr0, hr2, hc0, hc2, hcell⟩
    have hv : isValidMove s.board row col = true := by
      unfold isValidMove
      split_ifs with h
      · omega
      · simpa using hcell
    have hmm : makeMove s row col now =
        (true,
          { board := setCell s.board row.toNat col.toNat (some s.currentPlayer)
            currentPlayer := s.currentPlayer.other
            moves := s.moves ++
              [{ player := s.currentPlayer, row := row, col := col, timestamp := now }] }) := by
      unfold makeMove
      rw [hv]
      simp
    refine ⟨by rw [hmm], ?_, by rw [hmm], by rw [hmm]⟩
    rw [hmm]
    obtain ⟨hlen, hrows⟩ := hwf
    obtain ⟨r0, r1, r2, hb⟩ := List.length_eq_three.mp hlen
    rw [hb] at hcell hrows ⊢
    obtain ⟨a0, a1, a2, h0⟩ := List.length_eq_three.mp (hrows r0 (by simp))
    obtain ⟨b0, b1, b2, h1⟩ := List.length_eq_three.mp (hrows r1 (by simp))
    obtain ⟨c0, c1, c2, h2⟩ := List.length_eq_three.mp (hrows r2 (by simp))
    subst h0
    subst h1
    subst h2
    interval_cases row <;> interval_cases col <;> simp_all [cell, setCell]

theorem trim_eq_rdropWhile (s : List Char) :
    trim s = List.rdropWhile jsWhitespace (List.dropWhile jsWhitespace s) := rfl

theorem trim_trim (s : List Char) : trim (trim s) = trim s := by
  have hpre : trim s <+: List.dropWhile jsWhitespace s := by
    rw [trim_eq_rdropWhile]
    exact List.rdropWhile_prefix _ _
  obtain ⟨t, ht⟩ := hpre
  have hw : ∀ x, (trim s).head? = some x → jsWhitespace x = false := by
    intro x hx
    have hne : trim s ≠ [] := by
      intro hnil
      rw [hnil] at hx
      exact Option.noConfusion hx
    have hxs : (List.dropWhile jsWhitespace s).head? = some x := by
      rw [← ht, List.head?_append_of_ne_nil _ hne]
      exact hx
    have hmatch := List.head?_dropWhile_not jsWhitespace s
    rw [hxs] at hmatch
    exact hmatch
  have hhead : List.dropWhile jsWhitespace (trim s) = trim s := by
    cases htr : trim s with
    | nil => simp
    | cons a t2 =>
      have ha : jsWhitespace a = false := hw a (by rw [htr]; rfl)
      simp [List.dropWhile_cons, ha]
  calc trim (trim s)
      = List.rdropWhile jsWhitespace (List.dropWhile jsWhitespace (trim s)) := rfl
    _ = List.rdropWhile jsWhitespace (trim s) := by rw [hhead]
    _ = List.rdropWhile jsWhitespace
          (List.rdropWhile jsWhitespace (List.dropWhile jsWhitespace s)) := by
        rw [trim_eq_rdropWhile]
    _ = List.rdropWhile jsWhitespace (List.dropWhile jsWhitespace s) :=
        List.rdropWhile_idempotent _ _
    _ = trim s := (trim_eq_rdropWhile s).symm

theorem lastLineOf_trim (s : List Char) : lastLineOf (trim s) = lastLineOf s := by
  unfold lastLineOf
  rw [trim_trim]

theorem parseMove_congr {r1 r2 : List Char} (h : lastLineOf r1 = lastLineOf r2) :
    parseMove r1 = parseMove r2 := by
  unfold parseMove
  rw [h]

/-- C2. Whenever the last line of a reply matches one of the
coordinate-extraction patterns, the checks run in the fixed order numeric
validity, negativity, upper bound, success: an unparseable capture gives
invalid_syntax, a negative value gives negative_coordinates before the
range check, a value above 2 gives outside_board, and otherwise a valid
move with both coordinates in 0..2 is produced; concretely "-1,2"
classifies as negative_coordinates and "row 1 col 1" parses as (1,1). -/
theorem parseMove_check_order :
    (∀ (response caps : _),
      firstMatch patterns (lastLineOf response) = some caps →
      ((jsParseInt (caps.getD 0 []) = none ∨ jsParseInt (caps.getD 1 []) = none) →
        parseMove response = ParseResult.invalid InvalidMoveType.invalid_syntax) ∧
      (∀ r c, jsParseInt (caps.getD 0 []) = some r → jsParseInt (caps.getD 1 []) = some c →
        ((r < 0 ∨ c < 0) →
          parseMove response = ParseResult.invalid InvalidMoveType.negative_coordinates) ∧
        (¬(r < 0 ∨ c < 0) → (r > 2 ∨ c > 2) →
          parseMove response = ParseResult.invalid InvalidMoveType.outside_board) ∧
        (¬(r < 0 ∨ c < 0) → ¬(r > 2 ∨ c > 2) →
          parseMove response = ParseResult.move r c ∧ 0 ≤ r ∧ r ≤ 2 ∧ 0 ≤ c ∧ c ≤ 2))) ∧
    parseMove (chars "-1,2") = ParseResult.invalid InvalidMoveType.negative_coordinates ∧
    parseMove (chars "3,0") = ParseResult.invalid InvalidMoveType.outside_board ∧
    parseMove (chars "row 1 col 1") = ParseResult.move 1 1 := by
  refine ⟨?_, by decide, by decide, by decide⟩
  intro response caps hm
  constructor
  · intro hnone
    simp only [parseMove, hm]
    rcases h0 : jsParseInt (caps.getD 0 []) with _ | r
    · rcases h1 : jsParseInt (caps.getD 1 []) with _ | c <;> rfl
    · rcases h1 : jsParseInt (caps.getD 1 []) with _ | c
      · rfl
      · rw [h0, h1] at hnone
        rcases hnone with h | h <;> exact absurd h (by simp)
  · intro r c h0 h1
    have hred : parseMove response =
        (if r < 0 ∨ c < 0 then ParseResult.invalid InvalidMoveType.negative_coordinates
         else if r > 2 ∨ c > 2 then ParseResult.invalid InvalidMoveType.outside_board
         else ParseResult.move r c) := by
      simp only [parseMove, hm, h0, h1]
    refine ⟨?_, ?_, ?_⟩
    · intro hneg
      rw [hred, if_pos hneg]
    · intro hnn hout
      rw [hred, if_neg hnn, if_pos hout]
    · intro hnn hno
      rw [hred, if_neg hnn, if_neg hno]
      exact ⟨rfl, by omega, by omega, by omega, by omega⟩

/-- C3. A reply that trims to nothing is classified blank before any
pattern matching; the classification of a non-blank reply depends only on
its last non-blank line; the four patterns are tried in priority order and
the first match wins; and a non-blank reply whose last line matches no
pattern is invalid_syntax whether or not it holds a digit ("hello" gives
invalid_syntax, not blank). -/
theorem parseMove_last_line_contract :
    (∀ response, trim response = [] →
      classifyResponse response = ParseResult.invalid InvalidMoveType.blank) ∧
    classifyResponse (chars "  \n  ") = ParseResult.invalid InvalidMoveType.blank ∧
    (∀ r1 r2, trim r1 ≠ [] → trim r2 ≠ [] → lastLineOf r1 = lastLineOf r2 →
      classifyResponse r1 = classifyResponse r2) ∧
    (∀ (line : List Char) (i : Nat) p caps, patterns[i]? = some p →
      searchFrom p line = some caps →
      (∀ j q, j < i → patterns[j]? = some q → searchFrom q line = none) →
      firstMatch patterns line = some caps) ∧
    (∀ response, trim response ≠ [] → firstMatch patterns (lastLineOf response) = none →
      classifyResponse response = ParseResult.invalid InvalidMoveType.invalid_syntax) ∧
    classifyResponse (chars "hello") = ParseResult.invalid InvalidMoveType.invalid_syntax := by
  refine ⟨?_, by decide, ?_, ?_, ?_, by decide⟩
  · intro response h
    simp only [classifyResponse, h]
    rfl
  · intro r1 r2 h1 h2 hline
    simp only [classifyResponse, if_neg h1, if_neg h2]
    exact parseMove_congr (by rw [lastLineOf_trim, lastLineOf_trim, hline])
  · intro line i p caps hp hs hprior
    match i, hp with
    | 0, hp =>
      have : p = patRowCol := by simpa [patterns] using hp.symm
      subst this
      simp only [firstMatch, patterns, hs]
    | 1, hp =>
      have : p = patParen := by simpa [patterns] using hp.symm
      subst this
      have e0 : searchFrom patRowCol line = none := hprior 0 patRowCol (by omega) (by simp [patterns])
      simp only [firstMatch, patterns, e0, hs]
    | 2, hp =>
      have : p = patComma := by simpa [patterns] using hp.symm
      subst this
      have e0 : searchFrom patRowCol line = none := hprior 0 patRowCol (by omega) (by simp [patterns])
      have e1 : searchFrom patParen line = none := hprior 1 patParen (by omega) (by simp [patterns])
      simp only [firstMatch, patterns, e0, e1, hs]
    | 3, hp =>
      have : p = patSpace := by simpa [patterns] using hp.symm
      subst this
      have e0 : searchFrom patRowCol line = none := hprior 0 patRowCol (by omega) (by simp [patterns])
      have e1 : searchFrom patParen line = none := hprior 1 patParen (by omega) (by simp [patterns])
      have e2 : searchFrom patComma line = none := hprior 2 patComma (by omega) (by simp [patterns])
      simp only [firstMatch, patterns, e0, e1, e2, hs]
    | n + 4, hp => simp [patterns] at hp
  · intro response hne hnone
    simp only [classifyResponse, if_neg hne]
    have h2 : firstMatch patterns (lastLineOf (trim response)) = none := by
      rwa [lastLineOf_trim]
    simp only [parseMove, h2]
    split <;> rfl

/-- Witness for C2 at the concrete reply "1,1". -/
theorem parseMove_check_order_witness :
    parseMove (chars "1,1") = ParseResult.move 1 1 ∧
    parseMove (chars "5,1") = ParseResult.invalid InvalidMoveType.outside_board :=
  ⟨(((parseMove_check_order.1 (chars "1,1") [['1'], ['1']]
      (by decide)).2 1 1 (by decide) (by decide)).2.2 (by decide) (by decide)).1,
   ((parseMove_check_order.1 (chars "5,1") [['5'], ['1']]
      (by decide)).2 5 1 (by decide) (by decide)).2.1 (by decide) (by decide)⟩

/-- Witness for C3 at concrete replies. -/
theorem parseMove_last_line_contract_witness :
    classifyResponse (chars " ") = ParseResult.invalid InvalidMoveType.blank ∧
    classifyResponse (chars "a\n1,1") = classifyResponse (chars "b\n1,1") ∧
    firstMatch patterns (chars "(2,2)") = some [['2'], ['2']] ∧
    classifyResponse (chars "xyz") = ParseResult.invalid InvalidMoveType.invalid_syntax :=
  ⟨parseMove_last_line_contract.1 (chars " ") (by decide),
   parseMove_last_line_contract.2.2.1 (chars "a\n1,1") (chars "b\n1,1")
     (by decide) (by decide) (by decide),
   parseMove_last_line_contract.2.2.2.1 (chars "(2,2)") 1 patParen [['2'], ['2']]
     rfl (by decide)
     (by
       intro j q hj hq
       interval_cases j
       simp only [patterns] at hq
       simp only [List.getElem?_cons_zero, Option.some.injEq] at hq
       subst hq
       decide),
   parseMove_last_line_contract.2.2.2.2.1 (chars "xyz") (by decide) (by decide)⟩

/-- Witness for C5: a board whose top row is three O markers is reported
as an O win. -/
theorem checkWinner_terminal_correct_witness :
    checkWinner [[some Player.O, some Player.O, some Player.O],
      [some Player.X, some Player.X, none], [none, none, none]] =
      some (GameResult.win Player.O) :=
  (checkWinner_terminal_correct _).2.2.2.2.1 Player.O (by decide)

/-- Witness for C6: on the fresh board, the out-of-range move (3,0) is
rejected without touching the state, and the move (0,0) succeeds. -/
theorem makeMove_correct_witness :
    (makeMove initialGame 3 0 7 = (false, initialGame)) ∧
    ((makeMove initialGame 0 0 7).1 = true ∧
      cell (makeMove initialGame 0 0 7).2.board (0 : Int).toNat (0 : Int).toNat =
        some initialGame.currentPlayer ∧
      (makeMove initialGame 0 0 7).2.currentPlayer = initialGame.currentPlayer.other ∧
      (makeMove initialGame 0 0 7).2.moves = initialGame.moves ++
        [{ player := initialGame.currentPlayer, row := 0, col := 0, timestamp := 7 }]) :=
  ⟨(makeMove_correct initialGame 3 0 7 ⟨rfl, by decide⟩).1 (by decide),
   (makeMove_correct initialGame 0 0 7 ⟨rfl, by decide⟩).2 (by decide)⟩

/-- C8. A match in which both sides always play the first available empty
cell in row-major order deterministically ends in a first-player (X) win:
X takes (0,0),(0,2),(1,1) and completes the anti-diagonal with (2,0). -/
theorem naive_strategy_first_player_wins :
    playNaive 10 initialGame = some (GameResult.win Player.X) := by decide

theorem h2h_initStats (models : List String) (a b : String) :
    h2h (initStats models) a b = zeroOpp := by
  unfold h2h initStats
  by_cases h : a ∈ models <;> simp [h, zeroStats]

theorem symmInv_initStats (models : List String) : SymmInv (initStats models) := by
  intro a b
  rw [h2h_initStats, h2h_initStats]
  exact ⟨rfl, rfl, rfl, rfl⟩

theorem h2h_updStats (m : StatsMap) (k : String) (f : ModelStats → ModelStats) (a b : String)
    (hf : ∀ s, (f s).opponents = s.opponents) :
    h2h (updStats m k f) a b = h2h m a b := by
  unfold h2h updStats
  by_cases h : a = k
  · cases hm : m a with
    | none => simp [h, hm]
    | some s => simp [h, hm, hf s]
  · simp [h]

theorem h2h_ensureOpp (m : StatsMap) (k opp a b : String) :
    h2h (ensureOpp m k opp) a b = h2h m a b := by
  unfold h2h ensureOpp updStats setOppIfAbsent
  by_cases hak : a = k
  · cases hm : m a with
    | none => simp [hak, hm]
    | some s =>
      cases hcase : s.opponents opp with
      | none =>
        by_cases hbo : b = opp
        · simp [hak, hm, hcase, hbo]
        · simp [hak, hm, hcase, hbo]
      | some r => simp [hak, hm, hcase]
  · simp [hak]

theorem h2h_updOpp_ne (m : StatsMap) (k opp : String) (f : OppRecord → OppRecord) (a b : String)
    (h : ¬ (a = k ∧ b = opp)) :
    h2h (updOpp m k opp f) a b = h2h m a b := by
  unfold h2h updOpp updStats
  by_cases hak : a = k
  · cases hm : m a with
    | none => simp [hak, hm]
    | some s =>
      have hbo : ¬ b = opp := fun hb => h ⟨hak, hb⟩
      simp [hak, hm, hbo]
  · simp [hak]

theorem h2h_updOpp_self (m : StatsMap) (k opp : String) (f : OppRecord → OppRecord)
    (h : hasOpp m k opp) :
    h2h (updOpp m k opp f) k opp = f (h2h m k opp) := by
  obtain ⟨s, hs, hsome⟩ := h
  obtain ⟨r, hr⟩ := Option.isSome_iff_exists.mp hsome
  unfold h2h updOpp updStats
  simp [hs, hr]

theorem updStats_isSome (m : StatsMap) (k : String) (f : ModelStats → ModelStats) (a : String) :
    ((updStats m k f) a).isSome = (m a).isSome := by
  unfold updStats
  by_cases h : a = k <;> simp [h]

theorem hasOpp_updStats (m : StatsMap) (k2 : String) (f : ModelStats → ModelStats)
    (k opp : String) (hf : ∀ s, (f s).opponents = s.opponents)
    (h : hasOpp m k opp) : hasOpp (updStats m k2 f) k opp := by
  obtain ⟨s, hs, hsome⟩ := h
  unfold hasOpp updStats
  by_cases hk : k = k2
  · exact ⟨f s, by simp [hk, hk ▸ hs], by rw [hf]; exact hsome⟩
  · exact ⟨s, by simp [hk, hs], hsome⟩

theorem hasOpp_ensureOpp_self (m : StatsMap) (k opp : String) (h : (m k).isSome) :
    hasOpp (ensureOpp m k opp) k opp := by
  obtain ⟨s, hs⟩ := Option.isSome_iff_exists.mp h
  refine ⟨setOppIfAbsent s opp, ?_, ?_⟩
  · unfold ensureOpp updStats
    simp [hs]
  · unfold setOppIfAbsent
    by_cases habs : (s.opponents opp).isNone
    · simp [habs]
    · cases hcase : s.opponents opp with
      | none => exact absurd (by simp [hcase]) habs
      | some r => simp [habs, hcase]

theorem hasOpp_ensureOpp_other (m : StatsMap) (k2 opp2 k opp : String)
    (h : hasOpp m k opp) : hasOpp (ensureOpp m k2 opp2) k opp := by
  obtain ⟨s, hs, hsome⟩ := h
  unfold hasOpp ensureOpp updStats
  by_cases hk : k = k2
  · refine ⟨setOppIfAbsent s opp2, by simp [hk, hk ▸ hs], ?_⟩
    unfold setOppIfAbsent
    by_cases habs : (s.opponents opp2).isNone
    · by_cases hoo : opp = opp2
      · simp [habs, hoo]
      · simp [habs, hoo, hsome]
    · simp [habs, hsome]
  · exact ⟨s, by simp [hk, hs], hsome⟩

theorem hasOpp_updOpp (m : StatsMap) (k2 opp2 : String) (f : OppRecord → OppRecord)
    (k opp : String) (h : hasOpp m k opp) : hasOpp (updOpp m k2 opp2 f) k opp := by
  obtain ⟨s, hs, hsome⟩ := h
  by_cases hk : k = k2
  · subst hk
    refine ⟨{ s with opponents :=
        fun q => if q = opp2 then (s.opponents q).map f else s.opponents q }, ?_, ?_⟩
    · unfold updOpp updStats
      simp [hs]
    · by_cases hoo : opp = opp2
      · subst hoo
        simp [hsome]
      · simp [hoo, hsome]
  · unfold updOpp updStats
    exact ⟨s, by simp [hk, hs], hsome⟩

theorem h2h_double_updOpp (m6 : StatsMap) (Xk Ok : String) (f1 f2 : OppRecord → OppRecord)
    (hX : hasOpp m6 Xk Ok) (hO : hasOpp m6 Ok Xk) (a b : String) :
    h2h (updOpp (updOpp m6 Xk Ok f1) Ok Xk f2) a b =
      (if a = Ok ∧ b = Xk then f2 else id)
        ((if a = Xk ∧ b = Ok then f1 else id) (h2h m6 a b)) := by
  by_cases h2 : a = Ok ∧ b = Xk
  · obtain ⟨ha, hb⟩ := h2
    rw [if_pos ⟨ha, hb⟩, ha, hb]
    rw [h2h_updOpp_self _ _ _ _ (hasOpp_updOpp _ _ _ _ _ _ hO)]
    by_cases hEq : Xk = Ok
    · have hXX := hX
      rw [← hEq] at hXX
      rw [if_pos ⟨hEq.symm, hEq⟩]
      rw [show Ok = Xk from hEq.symm]
      rw [h2h_updOpp_self _ _ _ _ hXX]
    · rw [if_neg (fun hh => hEq hh.2)]
      rw [h2h_updOpp_ne _ _ _ _ _ _ (fun hh => hEq hh.2)]
      rfl
  · rw [if_neg h2, h2h_updOpp_ne _ _ _ _ _ _ h2]
    by_cases h1 : a = Xk ∧ b = Ok
    · obtain ⟨ha, hb⟩ := h1
      rw [if_pos ⟨ha, hb⟩, ha, hb]
      rw [h2h_updOpp_self _ _ _ _ hX]
      rfl
    · rw [if_neg h1, h2h_updOpp_ne _ _ _ _ _ _ h1]
      rfl

theorem symmInv_of_h2h_eq (m m2 : StatsMap) (h : ∀ a b, h2h m2 a b = h2h m a b)
    (inv : SymmInv m) : SymmInv m2 := by
  intro a b
  rw [show h2h m2 a b = h2h m a b from h a b, show h2h m2 b a = h2h m b a from h b a]
  exact inv a b

theorem symmInv_bumpPair (m4 : StatsMap) (Xk Ok : String)
    (g1 g2 : ModelStats → ModelStats) (f1 f2 : OppRecord → OppRecord)
    (hg1 : ∀ s, (g1 s).opponents = s.opponents) (hg2 : ∀ s, (g2 s).opponents = s.opponents)
    (hX : hasOpp m4 Xk Ok) (hO : hasOpp m4 Ok Xk) (inv : SymmInv m4)
    (hc : ∀ r r2 : OppRecord, r.wins = r2.losses → r.losses = r2.wins → r.draws = r2.draws →
      r.invalid = r2.invalid →
      (f1 r).wins = (f2 r2).losses ∧ (f1 r).losses = (f2 r2).wins ∧
      (f1 r).draws = (f2 r2).draws ∧ (f1 r).invalid = (f2 r2).invalid)
    (hcc : ∀ r : OppRecord, r.wins = r.losses → (f2 (f1 r)).wins = (f2 (f1 r)).losses) :
    SymmInv (bumpPair m4 Xk Ok g1 g2 f1 f2) := by
  have hbase : ∀ a b, h2h (updStats (updStats m4 Xk g1) Ok g2) a b = h2h m4 a b := by
    intro a b
    rw [h2h_updStats _ _ _ _ _ hg2, h2h_updStats _ _ _ _ _ hg1]
  have hX6 : hasOpp (updStats (updStats m4 Xk g1) Ok g2) Xk Ok :=
    hasOpp_updStats _ _ _ _ _ hg2 (hasOpp_updStats _ _ _ _ _ hg1 hX)
  have hO6 : hasOpp (updStats (updStats m4 Xk g1) Ok g2) Ok Xk :=
    hasOpp_updStats _ _ _ _ _ hg2 (hasOpp_updStats _ _ _ _ _ hg1 hO)
  intro a b
  have hab := h2h_double_updOpp _ Xk Ok f1 f2 hX6 hO6 a b
  have hba := h2h_double_updOpp _ Xk Ok f1 f2 hX6 hO6 b a
  rw [hbase a b] at hab
  rw [hbase b a] at hba
  obtain ⟨iw, il, idr, iin⟩ := inv a b
  obtain ⟨iw2, il2, idr2, iin2⟩ := inv b a
  simp only [bumpPair]
  rw [hab, hba]
  by_cases e1 : a = Xk ∧ b = Ok
  · by_cases e2 : a = Ok ∧ b = Xk
    · have habq : a = b := e1.1.trans e2.2.symm
      rw [if_pos e1, if_pos e2, if_pos ⟨e1.2, e1.1⟩, if_pos ⟨e2.2, e2.1⟩]
      rw [show b = a from habq.symm]
      obtain ⟨iwaa, _, _, _⟩ := inv a a
      exact ⟨hcc _ iwaa, (hcc _ iwaa).symm, rfl, rfl⟩
    · rw [if_pos e1, if_neg e2, if_pos ⟨e1.2, e1.1⟩,
        if_neg (fun hh => e2 ⟨hh.2, hh.1⟩)]
      simp only [id]
      exact hc _ _ iw il idr iin
  · by_cases e2 : a = Ok ∧ b = Xk
    · rw [if_neg e1, if_pos e2, if_neg (fun hh => e1 ⟨hh.2, hh.1⟩),
        if_pos ⟨e2.2, e2.1⟩]
      simp only [id]
      have hcr := hc _ _ iw2 il2 idr2 iin2
      exact ⟨hcr.2.1.symm, hcr.1.symm, hcr.2.2.1.symm, hcr.2.2.2.symm⟩
    · rw [if_neg e1, if_neg e2, if_neg (fun hh => e1 ⟨hh.2, hh.1⟩),
        if_neg (fun hh => e2 ⟨hh.2, hh.1⟩)]
      simp only [id]
      exact ⟨iw, il, idr, iin⟩

theorem h2h_prepOutcome (m : StatsMap) (Xk Ok a b : String) :
    h2h (prepOutcome m Xk Ok) a b = h2h m a b := by
  unfold prepOutcome
  rw [h2h_ensureOpp, h2h_ensureOpp,
    h2h_updStats _ Ok (fun s => { s with totalMatches := s.totalMatches + 1 }) _ _
      (fun s => rfl),
    h2h_updStats _ Xk (fun s => { s with totalMatches := s.totalMatches + 1 }) _ _
      (fun s => rfl)]

theorem ensureOpp_isSome (m : StatsMap) (k opp a : String) :
    ((ensureOpp m k opp) a).isSome = (m a).isSome := by
  unfold ensureOpp
  exact updStats_isSome _ _ _ _

theorem hasOpp_prepOutcome_X (m : StatsMap) (Xk Ok : String) (hXs : (m Xk).isSome) :
    hasOpp (prepOutcome m Xk Ok) Xk Ok := by
  unfold prepOutcome
  apply hasOpp_ensureOpp_other
  apply hasOpp_ensureOpp_self
  rw [updStats_isSome, updStats_isSome]
  exact hXs

theorem hasOpp_prepOutcome_O (m : StatsMap) (Xk Ok : String) (hOs : (m Ok).isSome) :
    hasOpp (prepOutcome m Xk Ok) Ok Xk := by
  unfold prepOutcome
  apply hasOpp_ensureOpp_self
  rw [ensureOpp_isSome, updStats_isSome, updStats_isSome]
  exact hOs

theorem symmInv_processOutcome (m : StatsMap) (o : MatchOutcome) (inv : SymmInv m) :
    SymmInv (processOutcome m o) := by
  unfold processOutcome
  split_ifs with hskip
  · exact inv
  · have hXs : (m o.X).isSome := by
      cases hmx : m o.X with
      | none => exact absurd (Or.inl (by rw [hmx]; rfl)) hskip
      | some s => rfl
    have hOs : (m o.O).isSome := by
      cases hmo : m o.O with
      | none => exact absurd (Or.inr (by rw [hmo]; rfl)) hskip
      | some s => rfl
    have hpX := hasOpp_prepOutcome_X m o.X o.O hXs
    have hpO := hasOpp_prepOutcome_O m o.X o.O hOs
    have hinv4 : SymmInv (prepOutcome m o.X o.O) :=
      symmInv_of_h2h_eq m _ (fun a b => h2h_prepOutcome m o.X o.O a b) inv
    cases hw : o.winner with
    | invalid =>
      refine symmInv_bumpPair _ _ _ _ _ _ _ (fun s => rfl) (fun s => rfl) hpX hpO hinv4 ?_ ?_
      · intro r r2 h1 h2 h3 h4
        refine ⟨?_, ?_, ?_, ?_⟩ <;> simp <;> omega
      · intro r h1
        simp
        omega
    | draw =>
      refine symmInv_bumpPair _ _ _ _ _ _ _ (fun s => rfl) (fun s => rfl) hpX hpO hinv4 ?_ ?_
      · intro r r2 h1 h2 h3 h4
        refine ⟨?_, ?_, ?_, ?_⟩ <;> simp <;> omega
      · intro r h1
        simp
        omega
    | X =>
      refine symmInv_bumpPair _ _ _ _ _ _ _ (fun s => rfl) (fun s => rfl) hpX hpO hinv4 ?_ ?_
      · intro r r2 h1 h2 h3 h4
        refine ⟨?_, ?_, ?_, ?_⟩ <;> simp <;> omega
      · intro r h1
        simp
        omega
    | O =>
      refine symmInv_bumpPair _ _ _ _ _ _ _ (fun s => rfl) (fun s => rfl) hpX hpO hinv4 ?_ ?_
      · intro r r2 h1 h2 h3 h4
        refine ⟨?_, ?_, ?_, ?_⟩ <;> simp <;> omega
      · intro r h1
        simp
        omega

theorem symmInv_foldl (outcomes : List MatchOutcome) :
    ∀ m : StatsMap, SymmInv m → SymmInv (outcomes.foldl processOutcome m) := by
  induction outcomes with
  | nil => exact fun m h => h
  | cons o rest ih => exact fun m h => ih _ (symmInv_processOutcome m o h)

theorem symmInv_foldStats (models : List String) (outcomes : List MatchOutcome) :
    SymmInv (foldStats models outcomes) :=
  symmInv_foldl outcomes _ (symmInv_initStats models)

/-- C9. After aggregation over any outcome log, the head-to-head records
are symmetric: the entry of A against B records as wins exactly B's losses
against A and conversely, and the two directions agree on draw and invalid
counts (absent records read as zeros). -/
theorem headToHead_symmetric (models : List String) (outcomes : List MatchOutcome)
    (A B : String) (sA sB : ModelStats)
    (hA : finalStatsMap models outcomes A = some sA)
    (hB : finalStatsMap models outcomes B = some sB) :
    ((sA.opponents B).getD zeroOpp).wins = ((sB.opponents A).getD zeroOpp).losses ∧
    ((sA.opponents B).getD zeroOpp).losses = ((sB.opponents A).getD zeroOpp).wins ∧
    ((sA.opponents B).getD zeroOpp).draws = ((sB.opponents A).getD zeroOpp).draws ∧
    ((sA.opponents B).getD zeroOpp).invalid = ((sB.opponents A).getD zeroOpp).invalid := by
  have hsymm := symmInv_foldStats models outcomes A B
  obtain ⟨s0, hs0, hset0⟩ := Option.map_eq_some'.mp hA
  obtain ⟨t0, ht0, hset1⟩ := Option.map_eq_some'.mp hB
  have hAopp : sA.opponents = s0.opponents := by
    rw [← hset0]
    rfl
  have hBopp : sB.opponents = t0.opponents := by
    rw [← hset1]
    rfl
  have hhA : h2h (foldStats models outcomes) A B = (sA.opponents B).getD zeroOpp := by
    unfold h2h
    rw [hs0, hAopp]
  have hhB : h2h (foldStats models outcomes) B A = (sB.opponents A).getD zeroOpp := by
    unfold h2h
    rw [ht0, hBopp]
  rw [hhA, hhB] at hsymm
  exact hsymm

/-- Witness for C9 on the two-outcome log. -/
theorem headToHead_symmetric_witness :
    ((sASym.opponents "B").getD zeroOpp).wins = ((sBSym.opponents "A").getD zeroOpp).losses ∧
    ((sASym.opponents "B").getD zeroOpp).losses = ((sBSym.opponents "A").getD zeroOpp).wins ∧
    ((sASym.opponents "B").getD zeroOpp).draws = ((sBSym.opponents "A").getD zeroOpp).draws ∧
    ((sASym.opponents "B").getD zeroOpp).invalid =
      ((sBSym.opponents "A").getD zeroOpp).invalid :=
  headToHead_symmetric ["A", "B"] logSym "A" "B" sASym sBSym rfl rfl

/-! C10: outcomes with an unknown participant. -/

theorem updStats_eq_none (m : StatsMap) (k : String) (f : ModelStats → ModelStats)
    (a : String) : (updStats m k f) a = none ↔ m a = none := by
  unfold updStats
  by_cases h : a = k <;> simp [h]

theorem processOutcome_eq_none (m : StatsMap) (o : MatchOutcome) (k : String) :
    (processOutcome m o) k = none ↔ m k = none := by
  unfold processOutcome
  split_ifs with hskip
  · exact Iff.rfl
  · cases o.winner <;>
      simp only [bumpPair, prepOutcome, updOpp, ensureOpp, updStats_eq_none]

theorem processOutcome_skip (m : StatsMap) (o : MatchOutcome)
    (h : m o.X = none ∨ m o.O = none) : processOutcome m o = m := by
  unfold processOutcome
  rw [if_pos]
  rcases h with h | h
  · exact Or.inl (by rw [h]; rfl)
  · exact Or.inr (by rw [h]; rfl)

theorem foldl_eq_none (outcomes : List MatchOutcome) :
    ∀ (m : StatsMap) (k : String),
      ((outcomes.foldl processOutcome m) k = none) ↔ m k = none := by
  induction outcomes with
  | nil => exact fun m k => Iff.rfl
  | cons o rest ih =>
    intro m k
    exact (ih (processOutcome m o) k).trans (processOutcome_eq_none m o k)

theorem initStats_eq_none (models : List String) (k : String) :
    (initStats models) k = none ↔ ¬ k ∈ models := by
  unfold initStats
  by_cases h : k ∈ models <;> simp [h]

theorem foldStats_append_unknown (models : List String) (o : MatchOutcome)
    (pre post : List MatchOutcome) (h : ¬ o.X ∈ models ∨ ¬ o.O ∈ models) :
    foldStats models (pre ++ o :: post) = foldStats models (pre ++ post) := by
  unfold foldStats
  rw [List.foldl_append, List.foldl_append, List.foldl_cons]
  congr 1
  apply processOutcome_skip
  rcases h with h | h
  · exact Or.inl ((foldl_eq_none pre _ _).mpr ((initStats_eq_none models _).mpr h))
  · exact Or.inr ((foldl_eq_none pre _ _).mpr ((initStats_eq_none models _).mpr h))

/-- C10. An outcome naming a model absent from the supplied model list is
skipped by the per-model aggregation: the ModelStats list and the rankings
are as if the outcome were not in the log; yet the outcome still counts
toward completedMatches or invalidMatches, and toward totalMatches when no
expected total is supplied. -/
theorem unknown_outcome_counted_not_aggregated (models : List String)
    (exp : Option Nat) (now : Nat) (o : MatchOutcome) (pre post : List MatchOutcome)
    (h : ¬ o.X ∈ models ∨ ¬ o.O ∈ models) :
    (generateStatistics models exp now (pre ++ o :: post)).models =
      (generateStatistics models exp now (pre ++ post)).models ∧
    (generateStatistics models exp now (pre ++ o :: post)).rankings =
      (generateStatistics models exp now (pre ++ post)).rankings ∧
    (generateStatistics models exp now (pre ++ o :: post)).completedMatches =
      (generateStatistics models exp now (pre ++ post)).completedMatches +
        (if o.winner = Winner.invalid then 0 else 1) ∧
    (generateStatistics models exp now (pre ++ o :: post)).invalidMatches =
      (generateStatistics models exp now (pre ++ post)).invalidMatches +
        (if o.winner = Winner.invalid then 1 else 0) ∧
    (generateStatistics models none now (pre ++ o :: post)).totalMatches =
      (generateStatistics models none now (pre ++ post)).totalMatches + 1 := by
  have hfold := foldStats_append_unknown models o pre post h
  have hfinal : finalStatsMap models (pre ++ o :: post) =
      finalStatsMap models (pre ++ post) := by
    unfold finalStatsMap
    rw [hfold]
  have hvalues : statsValues models (pre ++ o :: post) = statsValues models (pre ++ post) := by
    unfold statsValues
    rw [hfinal]
  refine ⟨?_, ?_, ?_, ?_, ?_⟩
  · simp only [generateStatistics]
    rw [hvalues]
  · simp only [generateStatistics]
    rw [hvalues]
  · simp only [generateStatistics, List.filter_append, List.filter_cons]
    by_cases hwin : o.winner = Winner.invalid
    all_goals simp [hwin, List.length_append]
    all_goals omega
  · simp only [generateStatistics, List.filter_append, List.filter_cons]
    by_cases hwin : o.winner = Winner.invalid
    all_goals simp [hwin, List.length_append]
    all_goals omega
  · simp only [generateStatistics, List.length_append, List.length_cons]
    omega

/-- Witness for C10: an A-vs-C outcome with C unconfigured. -/
theorem unknown_outcome_witness :
    (generateStatistics ["A"] none 5 [{ X := "A", O := "C", winner := Winner.X }]).models =
      (generateStatistics ["A"] none 5 []).models ∧
    (generateStatistics ["A"] none 5 [{ X := "A", O := "C", winner := Winner.X }]).rankings =
      (generateStatistics ["A"] none 5 []).rankings ∧
    (generateStatistics ["A"] none 5 [{ X := "A", O := "C", winner := Winner.X }]).completedMatches =
      (generateStatistics ["A"] none 5 []).completedMatches +
        (if ({ X := "A", O := "C", winner := Winner.X } : MatchOutcome).winner = Winner.invalid
          then 0 else 1) ∧
    (generateStatistics ["A"] none 5 [{ X := "A", O := "C", winner := Winner.X }]).invalidMatches =
      (generateStatistics ["A"] none 5 []).invalidMatches +
        (if ({ X := "A", O := "C", winner := Winner.X } : MatchOutcome).winner = Winner.invalid
          then 1 else 0) ∧
    (generateStatistics ["A"] none 5 [{ X := "A", O := "C", winner := Winner.X }]).totalMatches =
      (generateStatistics ["A"] none 5 []).totalMatches + 1 := by
  have hm := unknown_outcome_counted_not_aggregated ["A"] none 5
    { X := "A", O := "C", winner := Winner.X } [] [] (Or.inr (by decide))
  simpa using hm

/-- Counterexample to C1 as stated: in the four-outcome scenario the
aggregator computes A's win rate as wins / (total - invalid) = 2/4 = 1/2,
not 2/3 — the draw stays in the denominator. -/
theorem aggregator_scenario_rate_not_two_thirds :
    ((finalStatsMap ["A", "B"] logC1) "A").map ModelStats.winRate = some (mkRat 1 2) ∧
    ¬ ((finalStatsMap ["A", "B"] logC1) "A").map ModelStats.winRate = some (mkRat 2 3) := by
  exact ⟨by decide, by decide⟩

/-- C1 amended: A's win rate is 1/2 = 2 wins over 4 valid games, B's is
1/4, A's rate exceeds B's, and A is ranked first, above B. -/
theorem aggregator_scenario :
    ((finalStatsMap ["A", "B"] logC1) "A").map ModelStats.winRate = some (mkRat 1 2) ∧
    ((finalStatsMap ["A", "B"] logC1) "B").map ModelStats.winRate = some (mkRat 1 4) ∧
    mkRat 1 4 < mkRat 1 2 ∧
    (generateStatistics ["A", "B"] none 0 logC1).rankings =
      [{ modelId := "A", rank := 1, winRate := mkRat 1 2, totalWins := 2 },
       { modelId := "B", rank := 2, winRate := mkRat 1 4, totalWins := 1 }] := by
  refine ⟨by decide, by decide, by decide, by decide⟩

/-- C7 amended: two recomputations from the same log, model list and
expected total agree on every field of TournamentStats except the
timestamp, which records the clock at generation time. -/
theorem generateStatistics_deterministic (models : List String) (exp : Option Nat)
    (t1 t2 : Nat) (outcomes : List MatchOutcome) :
    (generateStatistics models exp t1 outcomes).totalMatches =
      (generateStatistics models exp t2 outcomes).totalMatches ∧
    (generateStatistics models exp t1 outcomes).completedMatches =
      (generateStatistics models exp t2 outcomes).completedMatches ∧
    (generateStatistics models exp t1 outcomes).invalidMatches =
      (generateStatistics models exp t2 outcomes).invalidMatches ∧
    (generateStatistics models exp t1 outcomes).models =
      (generateStatistics models exp t2 outcomes).models ∧
    (generateStatistics models exp t1 outcomes).rankings =
      (generateStatistics models exp t2 outcomes).rankings :=
  ⟨rfl, rfl, rfl, rfl, rfl⟩

/-- Counterexample to C7 as stated: recomputing at a later Date.now()
yields a TournamentStats record that is not identical, because the
timestamp field differs. -/
theorem generateStatistics_not_identical :
    generateStatistics [] none 0 [] ≠ generateStatistics [] none 1 [] := by
  intro h
  have h2 := congrArg TournamentStats.timestamp h
  simp only [generateStatistics] at h2
  exact Nat.noConfusion h2

theorem backoff_replicate (cfg : RetryConfig) :
    ∀ (k : Nat) (s : RetryState), s.completed = false →
      (List.foldl (stepAttempt cfg)
          s (List.replicate k (AttemptOutcome.invalid (chars "api_error")))).backoffTime =
        s.backoffTime * cfg.backoffMultiplier ^ k ∧
      (List.foldl (stepAttempt cfg)
          s (List.replicate k (AttemptOutcome.invalid (chars "api_error")))).completed =
        false := by
  intro k
  induction k with
  | zero =>
    intro s hs
    simp [hs, pow_zero]
  | succ n ih =>
    intro s hs
    rw [List.replicate_succ, List.foldl_cons]
    have hstep : stepAttempt cfg s (AttemptOutcome.invalid (chars "api_error")) =
        apiFailStep cfg { s with events := s.events ++ [LoopEvent.attempt] } := by
      simp [stepAttempt, hs, show isTextualInvalid (chars "api_error") = false by decide]
    rw [hstep]
    obtain ⟨hb, hc⟩ := ih (apiFailStep cfg { s with events := s.events ++ [LoopEvent.attempt] })
      rfl
    rw [hb, hc]
    refine ⟨?_, rfl⟩
    show s.backoffTime * cfg.backoffMultiplier * cfg.backoffMultiplier ^ n = _
    rw [pow_succ]
    ring

/-- C4. The retry loop: a textual invalid classification retries
immediately, recording only the new attempt, with the counter and delay
untouched; an api_error or an escaped exception records the attempt, then
exactly one operator wait when the incremented counter reaches maxRetries
(resetting it to zero), then a sleep of the current backoffTime, and
multiplies the delay by backoffMultiplier; after k consecutive api
failures the delay is the base times the k-th power of the multiplier; and
three consecutive api errors under maxRetries = 3 yield exactly one
operator wait, placed before the fourth attempt, which runs with the
counter at zero. -/
theorem retry_policy :
    (∀ (cfg : RetryConfig) (s : RetryState) (reason : List Char),
      s.completed = false → isTextualInvalid reason = true →
      stepAttempt cfg s (AttemptOutcome.invalid reason) =
        { s with events := s.events ++ [LoopEvent.attempt] }) ∧
    (∀ (cfg : RetryConfig) (s : RetryState) (reason : List Char),
      s.completed = false → isTextualInvalid reason = false →
      stepAttempt cfg s (AttemptOutcome.invalid reason) =
        { apiRetries := if s.apiRetries + 1 ≥ cfg.maxRetries then 0 else s.apiRetries + 1
          backoffTime := s.backoffTime * cfg.backoffMultiplier
          events := s.events ++ [LoopEvent.attempt] ++
            (if s.apiRetries + 1 ≥ cfg.maxRetries then [LoopEvent.operatorWait] else []) ++
            [LoopEvent.sleep s.backoffTime]
          completed := false }) ∧
    (∀ (cfg : RetryConfig) (s : RetryState),
      s.completed = false →
      stepAttempt cfg s AttemptOutcome.exception =
        { apiRetries := if s.apiRetries + 1 ≥ cfg.maxRetries then 0 else s.apiRetries + 1
          backoffTime := s.backoffTime * cfg.backoffMultiplier
          events := s.events ++ [LoopEvent.attempt] ++
            (if s.apiRetries + 1 ≥ cfg.maxRetries then [LoopEvent.operatorWait] else []) ++
            [LoopEvent.sleep s.backoffTime]
          completed := false }) ∧
    (∀ (cfg : RetryConfig) (k : Nat),
      (runAttempts cfg
          (List.replicate k (AttemptOutcome.invalid (chars "api_error")))).backoffTime =
        1000 * cfg.backoffMultiplier ^ k) ∧
    (runAttempts { maxRetries := 3, backoffMultiplier := 2 }
        [AttemptOutcome.invalid (chars "X: api_error"),
         AttemptOutcome.invalid (chars "X: api_error"),
         AttemptOutcome.invalid (chars "X: api_error"),
         AttemptOutcome.valid] =
      { apiRetries := 0
        backoffTime := 1000 * 2 * 2 * 2
        events := [LoopEvent.attempt, LoopEvent.sleep 1000,
          LoopEvent.attempt, LoopEvent.sleep (1000 * 2),
          LoopEvent.attempt, LoopEvent.operatorWait, LoopEvent.sleep (1000 * 2 * 2),
          LoopEvent.attempt]
        completed := true }) ∧
    ((1000 : Rat) * 2 = 2000 ∧ (1000 : Rat) * 2 * 2 = 4000 ∧
      (1000 : Rat) * 2 * 2 * 2 = 8000) ∧
    (runAttempts { maxRetries := 3, backoffMultiplier := 2 }
        [AttemptOutcome.invalid (chars "X: api_error"),
         AttemptOutcome.invalid (chars "X: api_error"),
         AttemptOutcome.invalid (chars "X: api_error"),
         AttemptOutcome.valid]).events.count LoopEvent.operatorWait = 1 := by
  refine ⟨?_, ?_, ?_, ?_, ?_, by norm_num, ?_⟩
  · intro cfg s reason hs ht
    simp [stepAttempt, hs, ht]
  · intro cfg s reason hs ht
    simp [stepAttempt, apiFailStep, hs, ht]
  · intro cfg s hs
    simp [stepAttempt, apiFailStep, hs]
  · intro cfg k
    exact (backoff_replicate cfg k initialRetryState rfl).1
  · rfl
  · rfl

/-- Witness for C4: one textual invalid step and one api-error step from
the initial state. -/
theorem retry_policy_witness :
    stepAttempt { maxRetries := 3, backoffMultiplier := 2 } initialRetryState
        (AttemptOutcome.invalid (chars "X: blank")) =
      { initialRetryState with events := initialRetryState.events ++ [LoopEvent.attempt] } ∧
    stepAttempt { maxRetries := 3, backoffMultiplier := 2 } initialRetryState
        (AttemptOutcome.invalid (chars "X: api_error")) =
      { apiRetries := if initialRetryState.apiRetries + 1 ≥ 3 then 0
          else initialRetryState.apiRetries + 1
        backoffTime := initialRetryState.backoffTime * 2
        events := initialRetryState.events ++ [LoopEvent.attempt] ++
          (if initialRetryState.apiRetries + 1 ≥ 3 then [LoopEvent.operatorWait] else []) ++
          [LoopEvent.sleep initialRetryState.backoffTime]
        completed := false } :=
  ⟨retry_policy.1 { maxRetries := 3, backoffMultiplier := 2 } initialRetryState
      (chars "X: blank") rfl (by decide),
   retry_policy.2.1 { maxRetries := 3, backoffMultiplier := 2 } initialRetryState
      (chars "X: api_error") rfl (by decide)⟩

end TTT
